import Mathlib

/-! # shorty: a URL shortener (`bin/www.js`)

A shallow embedding of the request handlers of `bin/www.js` on the in-memory
backend (`STORAGE !== "redis"`), followed by theorems about them.

Modelling decisions, all read off the source:

* The cache (`new NodeCache()` with default options: no expiry, no key limit)
  is a map from string keys to records, `Store`.  `cache.get` of an absent key
  is `undefined`, modelled by `none`; a stored record is an object and hence
  always truthy, so `!data` is `data = none`.
* A parsed body field is a JavaScript value, `JsVal`.
* `visits` is a natural number and `data.visits + 1` is the successor (exact for
  every count below `2^53`).
* `randomString.generate(ID_LENGTH)` is modelled by the sequence of strings that
  the successive calls made while serving one request return (`Request.gen`).
* A handler either completes or throws `Error(message)`; the context fields it
  assigned before throwing are kept, as in JavaScript.  `ctx.redirect(u)` is
  recorded as `redirect := some u`, the argument of the call; where Koa 2.x then
  sends the client is `koaRedirectTarget`.
-/

namespace Shorty

/-! ## JavaScript values and strings -/

/-- A value found under a field of the parsed request body. `num` stands for an
integer-valued number, `object` for any object or array. -/
inductive JsVal where
  | undefined
  | null
  | bool (b : Bool)
  | num (n : Int)
  | str (s : String)
  | object
  deriving DecidableEq, Repr

/-- JavaScript truthiness, as used by `!url`, `if (id)` and `id && ...`. -/
def JsVal.truthy : JsVal → Bool
  | .undefined => false
  | .null => false
  | .bool b => b
  | .num n => n != 0
  | .str s => s != ""
  | .object => true

/-- The call `s.replace(c, "")` for a one-character string pattern `c`: only the
first occurrence of `c` is removed. -/
def jsReplaceFirst (c : Char) (s : String) : String :=
  ⟨s.data.erase c⟩

/-- The call `s.endsWith(c)` for a one-character string `c`. -/
def jsEndsWith (s : String) (c : Char) : Bool :=
  s.data.getLast? == some c

/-- Membership in the character class `[0-9a-zA-Z_-]`. -/
def idCharOk (c : Char) : Bool :=
  ('0'.toNat ≤ c.toNat && c.toNat ≤ '9'.toNat) ||
  ('a'.toNat ≤ c.toNat && c.toNat ≤ 'z'.toNat) ||
  ('A'.toNat ≤ c.toNat && c.toNat ≤ 'Z'.toNat) ||
  c == '_' || c == '-'

/-- The test `id.match(/^[0-9a-zA-Z_-]+$/)` is not `null`: the string is not
empty and all of its characters are in the class. -/
def matchesIdRegex (s : String) : Bool :=
  !s.data.isEmpty && s.data.all idCharOk

/-! ## Storage -/

/-- The stored value: `{ url, visits }`. -/
structure Record where
  url : JsVal
  visits : Nat
  deriving DecidableEq, Repr

/-- The in-memory cache: a map from keys to records. -/
def Store : Type := String → Option Record

/-- The cache right after `new NodeCache()`. -/
def emptyStore : Store := fun _ => none

/-- The call `cache.set(key, value)`. -/
def cacheSet (s : Store) (key : String) (value : Record) : Store :=
  fun k => if k = key then some value else s k

/-- The function `getStorage(id)` on the in-memory backend: `cache.get(id)`. -/
def getStorage (s : Store) (id : String) : Option Record :=
  s id

/-- The function `setStorage(id, url)` on the in-memory backend:
`cache.set(id, { url, visits: 0 })`. -/
def setStorage (s : Store) (id : String) (url : JsVal) : Store :=
  cacheSet s id { url := url, visits := 0 }

/-! ## Requests and responses -/

/-- What the handlers read from an incoming request. -/
structure Request where
  /-- The value of `ctx.method`. -/
  method : String
  /-- The value of `ctx.req.url`, the raw request target. -/
  url : String
  /-- The `token` header, `none` when the request has none. -/
  token : Option String
  /-- The value of `ctx.request.body.url`. -/
  bodyUrl : JsVal
  /-- The value of `ctx.request.body.id`. -/
  bodyId : JsVal
  /-- The results of the successive `randomString.generate(ID_LENGTH)` calls. -/
  gen : Nat → String

/-- The call `ctx.get("token")`: the header value, or `""` without the header. -/
def ctxGetToken (req : Request) : String :=
  req.token.getD ""

/-- The response fields the program assigns: `ctx.status`, `ctx.body` (an object,
as its list of fields) and the argument of `ctx.redirect`. -/
structure Ctx where
  status : Option Nat := none
  body : Option (List (String × JsVal)) := none
  redirect : Option JsVal := none
  deriving DecidableEq, Repr

/-- How a handler ends: the context as assigned so far, the message of the
`Error` it threw (if any), and the cache. -/
structure Outcome where
  ctx : Ctx
  thrown : Option String
  store : Store

/-! ## The handlers -/

/-- The retry loop of `submit` (`for (let i = 0; i < 5; i++)`), with `n`
iterations left, about to run iteration `i` with the candidate `id`.  Returns
the final values of `exists` and `id`. -/
def allocLoop (gen : Nat → String) (s : Store) : Nat → Nat → String → Bool × String
  | 0, _, id => (true, id)
  | n + 1, i, id =>
    match getStorage s id with
    | none => (false, id)
    | some _ => allocLoop gen s n (i + 1) (gen (i + 1))

/-- The function `submit(ctx)`. -/
def submit (TOKEN : String) (req : Request) (s : Store) : Outcome :=
  -- validate token
  if ctxGetToken req ≠ TOKEN then
    { ctx := { status := some 403,
               body := some [("error", .str "access denied, token is missing")] },
      thrown := none, store := s }
  -- get and check the url
  else if !req.bodyUrl.truthy then
    { ctx := { status := some 400 }, thrown := some "url is missing", store := s }
  -- check if id was given
  else if req.bodyId.truthy then
    match req.bodyId with
    | .str id =>
      if !matchesIdRegex id then
        { ctx := {}, thrown := some "accepted characters for id are: [0-9a-zA-Z_-]",
          store := s }
      else
        -- check if it exists in storage
        match getStorage s id with
        | some _ =>
          { ctx := { status := some 400 }, thrown := some "given id already exists",
            store := s }
        | none =>
          { ctx := { body := some [("status", .str "success"), ("url", req.bodyUrl),
                                   ("id", .str id)] },
            thrown := none, store := setStorage s id req.bodyUrl }
    | _ =>
      -- a truthy value that is not a string has no `match` method
      { ctx := {}, thrown := some "id.match is not a function", store := s }
  else
    -- generate a random id, retry if it exists for a few times
    match allocLoop req.gen s 5 0 (req.gen 0) with
    | (true, _) =>
      { ctx := { status := some 400 }, thrown := some "id generation exhausted",
        store := s }
    | (false, id) =>
      { ctx := { body := some [("status", .str "success"), ("url", req.bodyUrl),
                               ("id", .str id)] },
        thrown := none, store := setStorage s id req.bodyUrl }

/-- The function `retrieve(ctx)`. -/
def retrieve (req : Request) (s : Store) : Outcome :=
  let id := jsReplaceFirst '/' req.url
  match getStorage s (jsReplaceFirst '+' id) with
  | none =>
    { ctx := { status := some 400 }, thrown := some "url with given id does not exist",
      store := s }
  | some data =>
    -- if it ends with +, return statistics
    if jsEndsWith id '+' then
      { ctx := { body := some [("status", .str "success"), ("visits", .num data.visits),
                               ("url", data.url), ("id", .str (jsReplaceFirst '+' id))] },
        thrown := none, store := s }
    else
      -- increase visits for id and redirect to url
      { ctx := { redirect := some data.url }, thrown := none,
        store := cacheSet s id { url := data.url, visits := data.visits + 1 } }

/-- The routing middleware. -/
def route (TOKEN : String) (req : Request) (s : Store) : Outcome :=
  if req.method = "GET" then retrieve req s
  else if req.method = "POST" then submit TOKEN req s
  else
    { ctx := { status := some 400 },
      thrown := some ("invalid HTTP method: " ++ req.method), store := s }

/-- The error handler middleware around the routing: a thrown error becomes the
body `{ status: "error", error: err.message }`. -/
def handle (TOKEN : String) (req : Request) (s : Store) : Ctx × Store :=
  let o := route TOKEN req s
  match o.thrown with
  | some message =>
    ({ o.ctx with body := some [("status", .str "error"), ("error", .str message)] },
     o.store)
  | none => (o.ctx, o.store)

/-- The cache after serving the requests one after another. -/
def run (TOKEN : String) : List Request → Store → Store
  | [], s => s
  | req :: rest, s => run TOKEN rest (handle TOKEN req s).2

/-- Where `ctx.redirect(url)` of Koa 2.x sends the client.  The method starts
with `if ('back' === url) url = this.ctx.get('Referrer') || alt || '/'` and then
sets the `Location` header from `url`; the program passes no `alt`.  `referrer`
is the value of `ctx.get('Referrer')`, which is `""` without the header. -/
def koaRedirectTarget (referrer : String) (url : JsVal) : JsVal :=
  if url = .str "back" then
    if referrer ≠ "" then .str referrer else .str "/"
  else url

/-! ## Concrete requests and stores used as examples -/

/-- A request posting the url `back` under the id `bk`. -/
def postBack : Request :=
  ⟨"POST", "/", some "secret", .str "back", .str "bk", fun _ => "abc"⟩

/-- A request for `/bk`. -/
def getBk : Request :=
  ⟨"GET", "/bk", none, .undefined, .undefined, fun _ => "abc"⟩

/-- A request posting `https://example.com` under the id `my-id`. -/
def postMyId : Request :=
  ⟨"POST", "/", some "secret", .str "https://example.com", .str "my-id", fun _ => "abc"⟩

/-- A request for `/my-id`. -/
def getMyId : Request :=
  ⟨"GET", "/my-id", none, .undefined, .undefined, fun _ => "abc"⟩

/-- A post without the `token` header. -/
def postNoToken : Request :=
  ⟨"POST", "/", none, .str "https://example.com", .str "my-id", fun _ => "abc"⟩

/-- A second post under the id `my-id`, with another url. -/
def postMyIdAgain : Request :=
  ⟨"POST", "/", some "secret", .str "https://b.com", .str "my-id", fun _ => "abc"⟩

/-- The cache after `postMyId` was served on a fresh cache. -/
def storeMyId : Store :=
  (submit "secret" postMyId emptyStore).store

/-- A request posting `https://a.com` under the id `ab`. -/
def postAb : Request :=
  ⟨"POST", "/", some "secret", .str "https://a.com", .str "ab", fun _ => "abc"⟩

/-- A request for `/a+b`. -/
def getAPlusB : Request :=
  ⟨"GET", "/a+b", none, .undefined, .undefined, fun _ => "abc"⟩

/-- A request posting `https://b.com` under the id `a+b`. -/
def postAPlusB : Request :=
  ⟨"POST", "/", some "secret", .str "https://b.com", .str "a+b", fun _ => "abc"⟩

/-- A request posting `https://x.com` under the id `bad id!`. -/
def postBadId : Request :=
  ⟨"POST", "/", some "secret", .str "https://x.com", .str "bad id!", fun _ => "abc"⟩

/-- A request for the statistics of `my-id`. -/
def getMyIdStats : Request :=
  ⟨"GET", "/my-id+", none, .undefined, .undefined, fun _ => "abc"⟩

/-- A post without an id, for which the generator yields `my-id` and then `abd`
at every later call. -/
def postNoId : Request :=
  ⟨"POST", "/", some "secret", .str "https://example.com", .undefined,
   fun n => if n = 0 then "my-id" else "abd"⟩

/-- The cache after `postAb` was served on a fresh cache. -/
def storeAb : Store :=
  (handle "secret" postAb emptyStore).2

/-- The cache after `postAb` and then `getAPlusB` were served on a fresh cache. -/
def storeAbVisited : Store :=
  (handle "secret" getAPlusB storeAb).2

/-- A post with the token and an empty body. -/
def postNoUrl : Request :=
  ⟨"POST", "/", some "secret", .undefined, .undefined, fun _ => "abc"⟩

/-- A post without an id, for which the generator yields `my-id` at every call. -/
def postNoIdStuck : Request :=
  ⟨"POST", "/", some "secret", .str "https://example.com", .undefined, fun _ => "my-id"⟩

/-- A request with the method `DELETE`. -/
def deleteMyId : Request :=
  ⟨"DELETE", "/my-id", some "secret", .undefined, .undefined, fun _ => "abc"⟩

/-! ## Notions used to state the properties -/

/-- The bare identifier in the words of the specification: the raw path with its
single leading `/` removed and a trailing `+` removed if present. -/
def specBareIdentifier (path : String) : String :=
  let rest := match path.data with
    | '/' :: t => t
    | l => l
  ⟨if rest.getLast? = some '+' then rest.dropLast else rest⟩

/-- The generator of a request yields strings over `[0-9a-zA-Z_-]` only: the
default character set of `randomString.generate(n)` is the alphanumeric one. -/
def GenInAlphabet (req : Request) : Prop :=
  ∀ n, ∀ c ∈ (req.gen n).data, idCharOk c = true

/-- Every key with a `+` in it holds the same url as the key one gets by
deleting its first `+`, which is stored as well. -/
def PlusConsistent (s : Store) : Prop :=
  ∀ k, '+' ∈ k.data → ∀ r, s k = some r →
    ∃ r', s (jsReplaceFirst '+' k) = some r' ∧ r'.url = r.url

/-- The three ways in which serving one request changes the cache: not at all,
by creating a record under a key without `+` that had none, or by writing back
the record found under `id` less its first `+`, with one more visit, under `id`. -/
inductive StepShape (s : Store) : Store → Prop where
  | same : StepShape s s
  | create (id : String) (url : JsVal) :
      s id = none → '+' ∉ id.data → StepShape s (setStorage s id url)
  | visit (id : String) (d : Record) :
      s (jsReplaceFirst '+' id) = some d →
      StepShape s (cacheSet s id { url := d.url, visits := d.visits + 1 })

/-! ## Basic facts about the cache and the string operations -/

theorem cacheSet_same (s : Store) (key : String) (value : Record) :
    cacheSet s key value key = some value := by
  simp [cacheSet]

theorem cacheSet_other (s : Store) (key k : String) (value : Record) (h : k ≠ key) :
    cacheSet s key value k = s k := by
  simp [cacheSet, h]

theorem jsReplaceFirst_absent (c : Char) (s : String) (h : c ∉ s.data) :
    jsReplaceFirst c s = s := by
  simp [jsReplaceFirst, List.erase_of_not_mem h]

theorem jsReplaceFirst_slash_append (id : String) :
    jsReplaceFirst '/' ("/" ++ id) = id := by
  have h : ("/" ++ id).data = '/' :: id.data := by
    simp [String.data_append]
  simp [jsReplaceFirst, h]

theorem idCharOk_plus : idCharOk '+' = false := by decide

theorem idCharOk_of_matches (id : String) (h : matchesIdRegex id = true) :
    ∀ c ∈ id.data, idCharOk c = true := by
  simp only [matchesIdRegex, Bool.and_eq_true, List.all_eq_true] at h
  exact h.2

theorem plus_not_mem_of_matches (id : String) (h : matchesIdRegex id = true) :
    '+' ∉ id.data := by
  intro hmem
  have := idCharOk_of_matches id h '+' hmem
  rw [idCharOk_plus] at this
  exact Bool.noConfusion this

theorem not_endsWith_of_not_mem (s : String) (c : Char) (h : c ∉ s.data) :
    jsEndsWith s c = false := by
  simp only [jsEndsWith, beq_eq_false_iff_ne, ne_eq]
  intro hl
  exact h (List.mem_of_getLast?_eq_some hl)

theorem str_truthy (u : String) (h : u ≠ "") : (JsVal.str u).truthy = true := by
  simp [JsVal.truthy, h]

theorem str_truthy_of_matches (id : String) (h : matchesIdRegex id = true) :
    (JsVal.str id).truthy = true := by
  apply str_truthy
  intro he
  subst he
  simp [matchesIdRegex] at h

theorem ctxGetToken_of_some (req : Request) (t : String) (h : req.token = some t) :
    ctxGetToken req = t := by
  simp [ctxGetToken, h]

/-- Submitting with the right token, a non-empty url and a well-formed id that
is not stored yet succeeds and stores `{ url, visits: 0 }`. -/
theorem submit_fresh_id (TOKEN : String) (s : Store) (url id : String) (req : Request)
    (hurl : url ≠ "") (hid : matchesIdRegex id = true) (hfresh : s id = none)
    (htok : req.token = some TOKEN) (hbu : req.bodyUrl = .str url)
    (hbi : req.bodyId = .str id) :
    submit TOKEN req s =
      { ctx := { body := some [("status", .str "success"), ("url", .str url),
                               ("id", .str id)] },
        thrown := none, store := setStorage s id (.str url) } := by
  have h1 : ctxGetToken req = TOKEN := ctxGetToken_of_some req TOKEN htok
  have h2 : (JsVal.str url).truthy = true := str_truthy url hurl
  have h3 : (JsVal.str id).truthy = true := str_truthy_of_matches id hid
  have h4 : getStorage s id = none := hfresh
  simp [submit, h1, hbu, hbi, h2, h3, hid, h4]

/-- Retrieving `"/" ++ id` for a well-formed id that is stored redirects and
writes the record back under `id` with one more visit. -/
theorem retrieve_stored_id (s : Store) (id : String) (r : Record) (req : Request)
    (hid : matchesIdRegex id = true) (hs : s id = some r) (hpath : req.url = "/" ++ id) :
    retrieve req s =
      { ctx := { redirect := some r.url }, thrown := none,
        store := cacheSet s id { url := r.url, visits := r.visits + 1 } } := by
  have hplus := plus_not_mem_of_matches id hid
  have h1 : jsReplaceFirst '/' req.url = id := by
    rw [hpath]; exact jsReplaceFirst_slash_append id
  have h2 : jsReplaceFirst '+' id = id := jsReplaceFirst_absent '+' id hplus
  have h3 : jsEndsWith id '+' = false := not_endsWith_of_not_mem id '+' hplus
  have h4 : getStorage s id = some r := hs
  simp [retrieve, h1, h2, h3, h4]

theorem getLast?_erase_of_ne (c d : Char) (hcd : c ≠ d) :
    ∀ l : List Char, l.getLast? = some c → (l.erase d).getLast? = some c
  | [], h => by simp at h
  | [a], h => by
    have ha : a = c := by simpa using h
    subst ha
    simp [List.erase_cons, hcd]
  | a :: b :: t, h => by
    have h2 : (b :: t).getLast? = some c := by
      rw [List.getLast?_cons_cons] at h
      exact h
    have ih := getLast?_erase_of_ne c d hcd (b :: t) h2
    by_cases had : a = d
    · subst had
      simpa using h2
    · have hne : ((b :: t).erase d) ≠ [] := by
        intro he
        rw [he] at ih
        simp at ih
      have hbeq : (a == d) = false := by simpa using had
      rw [List.erase_cons, hbeq]
      simp only [Bool.false_eq_true, if_false]
      obtain ⟨x, xs, hx⟩ := List.exists_cons_of_ne_nil hne
      rw [hx] at ih ⊢
      rw [List.getLast?_cons_cons]
      exact ih

theorem jsEndsWith_plus_after_slash (p : String) (h : jsEndsWith p '+' = true) :
    jsEndsWith (jsReplaceFirst '/' p) '+' = true := by
  simp only [jsEndsWith, beq_iff_eq] at h ⊢
  exact getLast?_erase_of_ne '+' '/' (by decide) p.data h

/-- A retrieve whose raw url ends in `+` never writes to the cache. -/
theorem retrieve_stats_store (req : Request) (s : Store)
    (h : jsEndsWith req.url '+' = true) : (retrieve req s).store = s := by
  have h1 := jsEndsWith_plus_after_slash req.url h
  simp only [retrieve]
  split
  · rfl
  · simp [h1]

theorem handle_store_of_route (TOKEN : String) (req : Request) (s : Store) :
    (handle TOKEN req s).2 = (route TOKEN req s).store := by
  simp only [handle]
  split <;> rfl

theorem allocLoop_all_taken (gen : Nat → String) (s : Store) :
    ∀ n i, (∀ j, j < n → s (gen (i + j)) ≠ none) →
      allocLoop gen s n i (gen i) = (true, gen (i + n))
  | 0, i, _ => by simp [allocLoop]
  | n + 1, i, h => by
    have h0 : s (gen i) ≠ none := by simpa using h 0 (Nat.succ_pos n)
    obtain ⟨r, hr⟩ := Option.ne_none_iff_exists'.mp h0
    have ih := allocLoop_all_taken gen s n (i + 1) (fun j hj => by
      have := h (j + 1) (Nat.succ_lt_succ hj)
      rwa [show i + (j + 1) = i + 1 + j by omega] at this)
    simp only [allocLoop, getStorage, hr]
    rw [ih]
    congr 2
    omega

theorem allocLoop_first_free (gen : Nat → String) (s : Store) :
    ∀ n i k, k < n → s (gen (i + k)) = none → (∀ j, j < k → s (gen (i + j)) ≠ none) →
      allocLoop gen s n i (gen i) = (false, gen (i + k))
  | 0, _, _, hk, _, _ => absurd hk (Nat.not_lt_zero _)
  | n + 1, i, 0, _, hfree, _ => by
    have : s (gen i) = none := by simpa using hfree
    simp [allocLoop, getStorage, this]
  | n + 1, i, k + 1, hk, hfree, htaken => by
    have h0 : s (gen i) ≠ none := by simpa using htaken 0 (Nat.succ_pos k)
    obtain ⟨r, hr⟩ := Option.ne_none_iff_exists'.mp h0
    have ih := allocLoop_first_free gen s n (i + 1) k (Nat.lt_of_succ_lt_succ hk)
      (by rwa [show i + 1 + k = i + (k + 1) by omega])
      (fun j hj => by
        have := htaken (j + 1) (Nat.succ_lt_succ hj)
        rwa [show i + (j + 1) = i + 1 + j by omega] at this)
    simp only [allocLoop, getStorage, hr]
    rw [ih]
    congr 2
    omega

/-- Whatever the routing throws, the error handler answers with the body
`{ status: "error", error: message }`. -/
theorem handle_body_of_thrown (TOKEN : String) (req : Request) (s : Store)
    (message : String) (h : (route TOKEN req s).thrown = some message) :
    (handle TOKEN req s).1.body =
      some [("status", .str "error"), ("error", .str message)] := by
  simp only [handle]
  split
  · rename_i m hm
    rw [h] at hm
    cases hm
    rfl
  · rename_i hm
    rw [h] at hm
    cases hm

theorem allocLoop_false (gen : Nat → String) (s : Store) :
    ∀ n i id id', allocLoop gen s n i id = (false, id') →
      s id' = none ∧ (id' = id ∨ ∃ m, id' = gen m)
  | 0, _, _, _, h => by simp [allocLoop] at h
  | n + 1, i, id, id', h => by
    cases hg : getStorage s id with
    | none =>
      simp only [allocLoop, hg, Prod.mk.injEq, true_and] at h
      subst h
      exact ⟨hg, Or.inl rfl⟩
    | some r =>
      simp only [allocLoop, hg] at h
      have ih := allocLoop_false gen s n (i + 1) (gen (i + 1)) id' h
      exact ⟨ih.1, Or.inr (ih.2.elim (fun e => ⟨i + 1, e⟩) (fun e => e))⟩

theorem plus_not_mem_of_alphabet (l : List Char) (h : ∀ c ∈ l, idCharOk c = true) :
    '+' ∉ l := by
  intro hmem
  have := h '+' hmem
  rw [idCharOk_plus] at this
  exact Bool.noConfusion this

theorem jsReplaceFirst_ne_of_mem (c : Char) (s : String) (h : c ∈ s.data) :
    jsReplaceFirst c s ≠ s := by
  intro he
  have hl : (jsReplaceFirst c s).data.length = s.data.length := by rw [he]
  simp only [jsReplaceFirst, List.length_erase_of_mem h] at hl
  have hpos : 0 < s.data.length := List.length_pos_of_mem h
  omega

theorem submit_shape (TOKEN : String) (req : Request) (s : Store) (hgen : GenInAlphabet req) :
    StepShape s (submit TOKEN req s).store := by
  unfold submit
  split
  · exact .same
  · split
    · exact .same
    · split
      · split
        · rename_i id _
          by_cases hm : matchesIdRegex id = true
          · cases hg : getStorage s id with
            | some r => simp only [hm, hg]; exact .same
            | none =>
              simp only [hm, hg]
              exact .create id _ hg (plus_not_mem_of_matches id hm)
          · simp only [hm]
            exact .same
        · exact .same
      · split
        · exact .same
        · rename_i id hl
          have hf := allocLoop_false req.gen s 5 0 (req.gen 0) id hl
          refine .create id _ hf.1 ?_
          rcases hf.2 with h | ⟨m, h⟩
          · rw [h]; exact plus_not_mem_of_alphabet _ (hgen 0)
          · rw [h]; exact plus_not_mem_of_alphabet _ (hgen m)

theorem retrieve_shape (req : Request) (s : Store) :
    StepShape s (retrieve req s).store := by
  simp only [retrieve]
  split
  · exact .same
  · rename_i data hg
    split
    · exact .same
    · exact .visit _ data hg

theorem handle_shape (TOKEN : String) (req : Request) (s : Store) (hgen : GenInAlphabet req) :
    StepShape s (handle TOKEN req s).2 := by
  rw [handle_store_of_route]
  unfold route
  split
  · exact retrieve_shape req s
  · split
    · exact submit_shape TOKEN req s hgen
    · exact .same

/-- On a consistent cache, a visit writes back the url that was already there. -/
theorem visit_url_eq (s : Store) (hs : PlusConsistent s) (id : String) (d r : Record)
    (hd : s (jsReplaceFirst '+' id) = some d) (hr : s id = some r) : d.url = r.url := by
  by_cases hp : '+' ∈ id.data
  · obtain ⟨r', hr', hu⟩ := hs id hp r hr
    rw [hd] at hr'
    cases hr'
    exact hu
  · rw [jsReplaceFirst_absent '+' id hp, hr] at hd
    cases hd
    rfl

theorem shape_keeps_urls (s s' : Store) (hs : PlusConsistent s) (h : StepShape s s') :
    ∀ k r, s k = some r → ∃ r', s' k = some r' ∧ r'.url = r.url := by
  intro k r hk
  cases h with
  | same => exact ⟨r, hk, rfl⟩
  | create id url hfree _ =>
    have hne : k ≠ id := by
      intro he
      rw [he, hfree] at hk
      cases hk
    exact ⟨r, by simp [setStorage, cacheSet_other _ _ _ _ hne, hk], rfl⟩
  | visit id d hd =>
    by_cases he : k = id
    · subst he
      exact ⟨_, cacheSet_same _ _ _, visit_url_eq s hs k d r hd hk⟩
    · exact ⟨r, by rw [cacheSet_other _ _ _ _ he, hk], rfl⟩

theorem shape_keeps_consistent (s s' : Store) (hs : PlusConsistent s)
    (h : StepShape s s') : PlusConsistent s' := by
  intro k hp r hk
  cases h with
  | same => exact hs k hp r hk
  | create id url hfree hnoplus =>
    have hne : k ≠ id := by
      intro he
      rw [he] at hp
      exact hnoplus hp
    simp only [setStorage, cacheSet_other _ _ _ _ hne] at hk
    obtain ⟨r', hr', hu⟩ := hs k hp r hk
    have hne' : jsReplaceFirst '+' k ≠ id := by
      intro he
      rw [he, hfree] at hr'
      cases hr'
    exact ⟨r', by simp [setStorage, cacheSet_other _ _ _ _ hne', hr'], hu⟩
  | visit id d hd =>
    by_cases he : k = id
    · subst he
      rw [cacheSet_same] at hk
      cases hk
      have hne : jsReplaceFirst '+' k ≠ k := jsReplaceFirst_ne_of_mem '+' k hp
      exact ⟨d, by rw [cacheSet_other _ _ _ _ hne, hd], rfl⟩
    · rw [cacheSet_other _ _ _ _ he] at hk
      obtain ⟨r', hr', hu⟩ := hs k hp r hk
      by_cases he' : jsReplaceFirst '+' k = id
      · rw [he'] at hr' ⊢
        refine ⟨_, cacheSet_same _ _ _, ?_⟩
        show d.url = r.url
        rw [visit_url_eq s hs id d r' hd hr', hu]
      · exact ⟨r', by rw [cacheSet_other _ _ _ _ he', hr'], hu⟩

theorem run_append (TOKEN : String) :
    ∀ (pre post : List Request) (s : Store),
      run TOKEN (pre ++ post) s = run TOKEN post (run TOKEN pre s)
  | [], _, _ => rfl
  | q :: pre, post, s => by
    simp only [List.cons_append, run]
    exact run_append TOKEN pre post _

theorem run_keeps (TOKEN : String) :
    ∀ (reqs : List Request) (s : Store), PlusConsistent s → (∀ q ∈ reqs, GenInAlphabet q) →
      PlusConsistent (run TOKEN reqs s) ∧
      ∀ k r, s k = some r → ∃ r', run TOKEN reqs s k = some r' ∧ r'.url = r.url
  | [], s, hs, _ => ⟨hs, fun k r hk => ⟨r, hk, rfl⟩⟩
  | q :: rest, s, hs, hgen => by
    have hsh := handle_shape TOKEN q s (hgen q (List.mem_cons_self q rest))
    have hs1 := shape_keeps_consistent s _ hs hsh
    have hu1 := shape_keeps_urls s _ hs hsh
    have ih := run_keeps TOKEN rest _ hs1 (fun x hx => hgen x (List.mem_cons_of_mem q hx))
    refine ⟨ih.1, ?_⟩
    intro k r hk
    obtain ⟨r1, hr1, hu⟩ := hu1 k r hk
    obtain ⟨r2, hr2, hu2⟩ := ih.2 k r1 hr1
    exact ⟨r2, hr2, by rw [hu2, hu]⟩

theorem plusConsistent_empty : PlusConsistent emptyStore := by
  intro k _ r hk
  cases hk

/-! ## Theorems for the claims -/

/-- C1, evaluated where the code departs from it: the url `back` is not empty,
the id `bk` matches `[0-9a-zA-Z_-]+` and is not stored, and `submit` with the
correct token succeeds. The following `retrieve` of `/bk` leaves
`{ url, visits: 1 }` under `bk` and passes `back` to `ctx.redirect`, for which
Koa 2.x redirects to the `Referrer` header, and to `/` without one, not to the
url `back`. -/
theorem retrieve_of_back_redirects_elsewhere :
    postBack.token = some "secret" ∧
    postBack.bodyUrl = .str "back" ∧
    postBack.bodyId = .str "bk" ∧
    matchesIdRegex "bk" = true ∧
    emptyStore "bk" = none ∧
    getBk.url = "/bk" ∧
    (submit "secret" postBack emptyStore).thrown = none ∧
    (submit "secret" postBack emptyStore).ctx.body =
      some [("status", .str "success"), ("url", .str "back"), ("id", .str "bk")] ∧
    (retrieve getBk (submit "secret" postBack emptyStore).store).thrown = none ∧
    (retrieve getBk (submit "secret" postBack emptyStore).store).store "bk" =
      some ⟨.str "back", 1⟩ ∧
    (retrieve getBk (submit "secret" postBack emptyStore).store).ctx.redirect =
      some (.str "back") ∧
    (retrieve getBk (submit "secret" postBack emptyStore).store).ctx.redirect.map
      (koaRedirectTarget "") = some (.str "/") ∧
    (retrieve getBk (submit "secret" postBack emptyStore).store).ctx.redirect.map
      (koaRedirectTarget "https://other.example") = some (.str "https://other.example") := by
  decide

/-- Round trip up to the call of `ctx.redirect`: for every store, non-empty url
and id matching `[0-9a-zA-Z_-]+` with no record in the store, `submit` with the
correct token succeeds, and a following retrieve of `"/" ++ id` passes exactly
that url to `ctx.redirect` and leaves `{ url, visits: 1 }` under `id`; Koa 2.x
then redirects to that url unless it is the string `back`. -/
theorem submit_then_retrieve_roundtrip (TOKEN : String) (s : Store) (url id : String)
    (post get : Request)
    (hurl : url ≠ "") (hid : matchesIdRegex id = true) (hfresh : s id = none)
    (htok : post.token = some TOKEN) (hbu : post.bodyUrl = .str url)
    (hbi : post.bodyId = .str id) (hpath : get.url = "/" ++ id) :
    (submit TOKEN post s).thrown = none ∧
    (submit TOKEN post s).ctx.body =
      some [("status", .str "success"), ("url", .str url), ("id", .str id)] ∧
    (retrieve get (submit TOKEN post s).store).thrown = none ∧
    (retrieve get (submit TOKEN post s).store).ctx.redirect = some (.str url) ∧
    (retrieve get (submit TOKEN post s).store).store id = some ⟨.str url, 1⟩ ∧
    (url ≠ "back" → ∀ referrer,
      (retrieve get (submit TOKEN post s).store).ctx.redirect.map
        (koaRedirectTarget referrer) = some (.str url)) := by
  rw [submit_fresh_id TOKEN s url id post hurl hid hfresh htok hbu hbi]
  have hs : setStorage s id (.str url) id = some ⟨.str url, 0⟩ := by
    simp [setStorage, cacheSet_same]
  rw [retrieve_stored_id (setStorage s id (.str url)) id ⟨.str url, 0⟩ get hid hs hpath]
  refine ⟨rfl, rfl, rfl, rfl, by simp [cacheSet_same], ?_⟩
  intro hback referrer
  simp [koaRedirectTarget, hback]

/-- C3: for every store and every request, `submit` with a token that is missing
or differs from the configured secret answers with status 403 and the access
denied body, throws nothing and leaves the store as it was. The secret is not
empty, which the start-up check on `TOKEN` guarantees. -/
theorem submit_bad_token_denied (TOKEN : String) (req : Request) (s : Store)
    (hcfg : TOKEN ≠ "") (htok : req.token ≠ some TOKEN) :
    (submit TOKEN req s).ctx.status = some 403 ∧
    (submit TOKEN req s).ctx.body =
      some [("error", .str "access denied, token is missing")] ∧
    (submit TOKEN req s).ctx.redirect = none ∧
    (submit TOKEN req s).thrown = none ∧
    (submit TOKEN req s).store = s := by
  have h : ctxGetToken req ≠ TOKEN := by
    unfold ctxGetToken
    cases ht : req.token with
    | none => simpa using fun h => hcfg h.symm
    | some t =>
      simp only [Option.getD_some]
      intro he
      exact htok (by rw [ht, he])
  simp [submit, h]

theorem submit_bad_token_denied_witness :
    (submit "secret" postNoToken emptyStore).ctx.status = some 403 ∧
    (submit "secret" postNoToken emptyStore).ctx.body =
      some [("error", .str "access denied, token is missing")] ∧
    (submit "secret" postNoToken emptyStore).ctx.redirect = none ∧
    (submit "secret" postNoToken emptyStore).thrown = none ∧
    (submit "secret" postNoToken emptyStore).store = emptyStore :=
  submit_bad_token_denied "secret" postNoToken emptyStore (by decide) (by decide)

/-- C2, as amended: for every store that holds a record under an id matching
`[0-9a-zA-Z_-]+` and every non-empty url, `submit` with the correct token and
that id throws "given id already exists" with status 400 and leaves the store
unchanged, so the record is still there. -/
theorem submit_existing_id_conflict (TOKEN : String) (s : Store) (url id : String)
    (r : Record) (req : Request)
    (hurl : url ≠ "") (hid : matchesIdRegex id = true) (hex : s id = some r)
    (htok : req.token = some TOKEN) (hbu : req.bodyUrl = .str url)
    (hbi : req.bodyId = .str id) :
    (submit TOKEN req s).thrown = some "given id already exists" ∧
    (submit TOKEN req s).ctx.status = some 400 ∧
    (submit TOKEN req s).store = s ∧
    (submit TOKEN req s).store id = some r := by
  have h1 : ctxGetToken req = TOKEN := ctxGetToken_of_some req TOKEN htok
  have h2 : (JsVal.str url).truthy = true := str_truthy url hurl
  have h3 : (JsVal.str id).truthy = true := str_truthy_of_matches id hid
  have h4 : getStorage s id = some r := hex
  simp [submit, h1, hbu, hbi, h2, h3, hid, h4, hex]

theorem submit_existing_id_conflict_witness :
    (submit "secret" postMyIdAgain storeMyId).thrown = some "given id already exists" ∧
    (submit "secret" postMyIdAgain storeMyId).ctx.status = some 400 ∧
    (submit "secret" postMyIdAgain storeMyId).store = storeMyId ∧
    (submit "secret" postMyIdAgain storeMyId).store "my-id" =
      some ⟨.str "https://example.com", 0⟩ :=
  submit_existing_id_conflict "secret" storeMyId "https://b.com" "my-id"
    ⟨.str "https://example.com", 0⟩ postMyIdAgain (by decide) (by decide) (by decide)
    rfl rfl rfl

/-- C2, as stated, fails: the cache reached by posting `ab` and then getting
`/a+b` holds a record under `a+b`, and a post with the correct token, a
non-empty url and the id `a+b` is rejected for its characters, not with
"given id already exists". -/
theorem submit_existing_id_not_conflict :
    storeAbVisited "a+b" = some ⟨.str "https://a.com", 1⟩ ∧
    postAPlusB.token = some "secret" ∧
    postAPlusB.bodyUrl = .str "https://b.com" ∧
    postAPlusB.bodyId = .str "a+b" ∧
    (submit "secret" postAPlusB storeAbVisited).thrown =
      some "accepted characters for id are: [0-9a-zA-Z_-]" ∧
    (submit "secret" postAPlusB storeAbVisited).thrown ≠
      some "given id already exists" := by
  decide

/-- C8: for every store, correct token, non-empty url and non-empty id string,
`submit` throws the invalid-identifier error exactly when the id has a character
outside `0-9`, `a-z`, `A-Z`, `_` and `-`; and then the store is unchanged. -/
theorem submit_invalid_id_iff (TOKEN : String) (s : Store) (url id : String)
    (req : Request)
    (hurl : url ≠ "") (hne : id ≠ "")
    (htok : req.token = some TOKEN) (hbu : req.bodyUrl = .str url)
    (hbi : req.bodyId = .str id) :
    ((submit TOKEN req s).thrown = some "accepted characters for id are: [0-9a-zA-Z_-]" ↔
      ∃ c ∈ id.data, idCharOk c = false) ∧
    ((submit TOKEN req s).thrown = some "accepted characters for id are: [0-9a-zA-Z_-]" →
      (submit TOKEN req s).store = s) := by
  have h1 : ctxGetToken req = TOKEN := ctxGetToken_of_some req TOKEN htok
  have h2 : (JsVal.str url).truthy = true := str_truthy url hurl
  have h3 : (JsVal.str id).truthy = true := str_truthy id hne
  have hdata : id.data ≠ [] := by
    intro h
    apply hne
    cases id
    simp_all
  cases hm : matchesIdRegex id with
  | true =>
    have hall := idCharOk_of_matches id hm
    have hno : ¬ ∃ c ∈ id.data, idCharOk c = false := by
      rintro ⟨c, hc, hf⟩
      rw [hall c hc] at hf
      exact Bool.noConfusion hf
    cases hg : getStorage s id with
    | none => simp [submit, h1, hbu, hbi, h2, h3, hm, hg, hno]
    | some r => simp [submit, h1, hbu, hbi, h2, h3, hm, hg, hno]
  | false =>
    have hex : ∃ c ∈ id.data, idCharOk c = false := by
      simp only [matchesIdRegex, Bool.and_eq_false_iff, Bool.not_eq_false_eq_eq_true,
        List.isEmpty_iff] at hm
      rcases hm with hm | hm
      · exact absurd hm hdata
      · simpa using hm
    simp [submit, h1, hbu, hbi, h2, h3, hm, hex]

theorem submit_invalid_id_iff_witness :
    ((submit "secret" postBadId emptyStore).thrown =
        some "accepted characters for id are: [0-9a-zA-Z_-]" ↔
      ∃ c ∈ "bad id!".data, idCharOk c = false) ∧
    ((submit "secret" postBadId emptyStore).thrown =
        some "accepted characters for id are: [0-9a-zA-Z_-]" →
      (submit "secret" postBadId emptyStore).store = emptyStore) :=
  submit_invalid_id_iff "secret" emptyStore "https://x.com" "bad id!" postBadId
    (by decide) (by decide) rfl rfl rfl

/-- C6: stats retrieval is read-only. For every store and every list of GET
requests whose raw url ends in `+`, each single `retrieve` leaves the store
unchanged, whether it succeeds or fails, and so does serving the whole list one
after another. -/
theorem stats_retrieve_readonly (TOKEN : String) (reqs : List Request) (s : Store)
    (hget : ∀ r ∈ reqs, r.method = "GET")
    (hplus : ∀ r ∈ reqs, jsEndsWith r.url '+' = true) :
    (∀ r ∈ reqs, (retrieve r s).store = s) ∧ run TOKEN reqs s = s := by
  constructor
  · intro r hr
    exact retrieve_stats_store r s (hplus r hr)
  · induction reqs with
    | nil => rfl
    | cons r rest ih =>
      have hstep : (handle TOKEN r s).2 = s := by
        rw [handle_store_of_route]
        have hm : r.method = "GET" := hget r (List.mem_cons_self r rest)
        simp only [route, hm, if_true]
        exact retrieve_stats_store r s (hplus r (List.mem_cons_self r rest))
      simp only [run, hstep]
      exact ih (fun q hq => hget q (List.mem_cons_of_mem r hq))
        (fun q hq => hplus q (List.mem_cons_of_mem r hq))

theorem stats_retrieve_readonly_witness :
    (∀ r ∈ [getMyIdStats, getMyIdStats, getMyIdStats],
      (retrieve r storeMyId).store = storeMyId) ∧
    run "secret" [getMyIdStats, getMyIdStats, getMyIdStats] storeMyId = storeMyId :=
  stats_retrieve_readonly "secret" [getMyIdStats, getMyIdStats, getMyIdStats] storeMyId
    (by decide) (by decide)

/-- C7: bounded-retry allocation. For every store and non-empty url, `submit`
with the correct token and no id succeeds exactly when one of the first five
candidates of the generator has no record; then the returned id is the first
such candidate, the store has `{ url, visits: 0 }` under it and is unchanged at
every other key. When all five have records it throws "id generation
exhausted" and the store is unchanged. -/
theorem submit_allocates_first_free (TOKEN : String) (s : Store) (url : String)
    (req : Request)
    (hurl : url ≠ "") (htok : req.token = some TOKEN) (hbu : req.bodyUrl = .str url)
    (hnoid : req.bodyId.truthy = false) :
    ((submit TOKEN req s).thrown = none ↔ ∃ i, i < 5 ∧ s (req.gen i) = none) ∧
    (∀ i, i < 5 → s (req.gen i) = none → (∀ j, j < i → s (req.gen j) ≠ none) →
      (submit TOKEN req s).thrown = none ∧
      (submit TOKEN req s).ctx.body =
        some [("status", .str "success"), ("url", .str url), ("id", .str (req.gen i))] ∧
      (submit TOKEN req s).store (req.gen i) = some ⟨.str url, 0⟩ ∧
      ∀ k, k ≠ req.gen i → (submit TOKEN req s).store k = s k) ∧
    ((∀ i, i < 5 → s (req.gen i) ≠ none) →
      (submit TOKEN req s).thrown = some "id generation exhausted" ∧
      (submit TOKEN req s).ctx.status = some 400 ∧
      (submit TOKEN req s).store = s) := by
  have h1 : ctxGetToken req = TOKEN := ctxGetToken_of_some req TOKEN htok
  have h2 : (JsVal.str url).truthy = true := str_truthy url hurl
  have hfound : ∀ i, i < 5 → s (req.gen i) = none → (∀ j, j < i → s (req.gen j) ≠ none) →
      submit TOKEN req s =
        { ctx := { body := some [("status", .str "success"), ("url", .str url),
                                 ("id", .str (req.gen i))] },
          thrown := none, store := setStorage s (req.gen i) (.str url) } := by
    intro i hi hfree htaken
    have hl := allocLoop_first_free req.gen s 5 0 i hi (by simpa using hfree)
      (fun j hj => by simpa using htaken j hj)
    simp only [Nat.zero_add] at hl
    simp [submit, h1, hbu, h2, hnoid, hl]
  have hexh : (∀ i, i < 5 → s (req.gen i) ≠ none) →
      submit TOKEN req s =
        { ctx := { status := some 400 }, thrown := some "id generation exhausted",
          store := s } := by
    intro hall
    have hl := allocLoop_all_taken req.gen s 5 0 (fun j hj => by simpa using hall j hj)
    simp only [Nat.zero_add] at hl
    simp [submit, h1, hbu, h2, hnoid, hl]
  refine ⟨?_, ?_, ?_⟩
  · constructor
    · intro hthrown
      by_contra hne
      have hall : ∀ i, i < 5 → s (req.gen i) ≠ none := fun i hi hfree => hne ⟨i, hi, hfree⟩
      rw [hexh hall] at hthrown
      simp at hthrown
    · intro hex
      have hmin := Nat.find_spec hex
      have hlt : ∀ j, j < Nat.find hex → s (req.gen j) ≠ none := by
        intro j hj hfree
        exact Nat.find_min hex hj ⟨Nat.lt_trans hj hmin.1, hfree⟩
      rw [hfound (Nat.find hex) hmin.1 hmin.2 hlt]
  · intro i hi hfree htaken
    rw [hfound i hi hfree htaken]
    refine ⟨rfl, rfl, ?_, ?_⟩
    · simp [setStorage, cacheSet_same]
    · intro k hk
      simp [setStorage, cacheSet_other _ _ _ _ hk]
  · intro hall
    rw [hexh hall]
    exact ⟨rfl, rfl, rfl⟩

theorem submit_allocates_first_free_witness :
    ((submit "secret" postNoId storeMyId).thrown = none ↔
      ∃ i, i < 5 ∧ storeMyId (postNoId.gen i) = none) ∧
    (∀ i, i < 5 → storeMyId (postNoId.gen i) = none →
      (∀ j, j < i → storeMyId (postNoId.gen j) ≠ none) →
      (submit "secret" postNoId storeMyId).thrown = none ∧
      (submit "secret" postNoId storeMyId).ctx.body =
        some [("status", .str "success"), ("url", .str "https://example.com"),
              ("id", .str (postNoId.gen i))] ∧
      (submit "secret" postNoId storeMyId).store (postNoId.gen i) =
        some ⟨.str "https://example.com", 0⟩ ∧
      ∀ k, k ≠ postNoId.gen i → (submit "secret" postNoId storeMyId).store k = storeMyId k) ∧
    ((∀ i, i < 5 → storeMyId (postNoId.gen i) ≠ none) →
      (submit "secret" postNoId storeMyId).thrown = some "id generation exhausted" ∧
      (submit "secret" postNoId storeMyId).ctx.status = some 400 ∧
      (submit "secret" postNoId storeMyId).store = storeMyId) :=
  submit_allocates_first_free "secret" storeMyId "https://example.com" postNoId
    (by decide) rfl rfl rfl

/-- C4, evaluated where the code departs from it: `ab` is stored, `a+b` is not.
The bare identifier of `/a+b` is `a+b`, under which the store has no record, yet
`retrieve` does not throw the not-found error: it looks up `ab`, the path less
its first `+`, and redirects. -/
theorem retrieve_finds_without_bare_identifier :
    specBareIdentifier getAPlusB.url = "a+b" ∧
    storeAb "a+b" = none ∧
    (retrieve getAPlusB storeAb).thrown = none ∧
    (retrieve getAPlusB storeAb).ctx.redirect = some (.str "https://a.com") := by
  decide

/-- C5, evaluated where the code departs from it: on the cache holding only
`ab`, `retrieve` of `/a+b` answers with a redirect, leaves the visits of `ab`,
the record looked up, at 0, and adds the key `a+b` with visits 1. -/
theorem retrieve_redirect_adds_key :
    (retrieve getAPlusB storeAb).thrown = none ∧
    (retrieve getAPlusB storeAb).ctx.redirect = some (.str "https://a.com") ∧
    storeAb "ab" = some ⟨.str "https://a.com", 0⟩ ∧
    (retrieve getAPlusB storeAb).store "ab" = some ⟨.str "https://a.com", 0⟩ ∧
    storeAb "a+b" = none ∧
    (retrieve getAPlusB storeAb).store "a+b" = some ⟨.str "https://a.com", 1⟩ := by
  decide

/-- C9: the url bound to a key never changes. The in-memory cache starts empty,
so the stores it can hold are those reached from the empty cache by serving
some requests `init`. From any such store, for every sequence of requests
`pre ++ post` (any methods, tokens, bodies and raw paths) served one after
another: once a key holds a record with url `u`, here after `pre`, it holds a
record with url `u` after the later requests `post` as well. The ids the
generator yields are strings over its alphabet. -/
theorem url_never_rebound (TOKEN : String) (init pre post : List Request)
    (k : String) (r : Record)
    (hgen : ∀ q ∈ init ++ (pre ++ post), GenInAlphabet q)
    (hk : run TOKEN pre (run TOKEN init emptyStore) k = some r) :
    ∃ r', run TOKEN (pre ++ post) (run TOKEN init emptyStore) k = some r' ∧
      r'.url = r.url := by
  rw [run_append]
  have hinit := run_keeps TOKEN init emptyStore plusConsistent_empty
    (fun q hq => hgen q (List.mem_append_left _ hq))
  have hpre := run_keeps TOKEN pre (run TOKEN init emptyStore) hinit.1
    (fun q hq => hgen q (List.mem_append_right _ (List.mem_append_left _ hq)))
  have hpost := run_keeps TOKEN post (run TOKEN pre (run TOKEN init emptyStore)) hpre.1
    (fun q hq => hgen q (List.mem_append_right _ (List.mem_append_right _ hq)))
  exact hpost.2 k r hk

theorem url_never_rebound_witness :
    ∃ r', run "secret" ([getAPlusB] ++ [postAPlusB, getAPlusB])
        (run "secret" [postAb] emptyStore) "a+b" = some r' ∧
      r'.url = (⟨.str "https://a.com", 1⟩ : Record).url :=
  url_never_rebound "secret" [postAb] [getAPlusB] [postAPlusB, getAPlusB] "a+b"
    ⟨.str "https://a.com", 1⟩
    (by
      intro q hq n c hc
      have hq' : q.gen n = "abc" := by
        simp only [List.singleton_append, List.mem_cons, List.mem_singleton,
          List.not_mem_nil, or_false] at hq
        rcases hq with h | h | h | h <;> subst h <;> rfl
      rw [hq'] at hc
      revert c
      decide)
    (by decide)

/-- C10, evaluated where the code departs from it: a post without the token is
answered with status 403 and the body `{ error: ... }`, which has no `status`
field. The six thrown errors (missing url, invalid identifier, conflict,
exhaustion, not found, invalid method) are answered with the body
`{ status: "error", error: message }`. -/
theorem access_denied_body_lacks_status :
    (handle "secret" postNoToken emptyStore).1.status = some 403 ∧
    (handle "secret" postNoToken emptyStore).1.body =
      some [("error", .str "access denied, token is missing")] ∧
    ((handle "secret" postNoToken emptyStore).1.body.bind (List.lookup "status")) = none ∧
    (handle "secret" postNoUrl emptyStore).1.body =
      some [("status", .str "error"), ("error", .str "url is missing")] ∧
    (handle "secret" postBadId emptyStore).1.body =
      some [("status", .str "error"),
            ("error", .str "accepted characters for id are: [0-9a-zA-Z_-]")] ∧
    (handle "secret" postMyIdAgain storeMyId).1.body =
      some [("status", .str "error"), ("error", .str "given id already exists")] ∧
    (handle "secret" postNoIdStuck storeMyId).1.body =
      some [("status", .str "error"), ("error", .str "id generation exhausted")] ∧
    (handle "secret" getMyId emptyStore).1.body =
      some [("status", .str "error"), ("error", .str "url with given id does not exist")] ∧
    (handle "secret" deleteMyId emptyStore).1.body =
      some [("status", .str "error"), ("error", .str "invalid HTTP method: DELETE")] := by
  decide

end Shorty
